import Mathlib

/-!
Verification development for the CCTV-SOS-AUTOMATION monitoring client
(frontend-layer/src/App.jsx).  The client consumes binary frames
`[4-byte big-endian length L][L bytes of JSON metadata][image payload]`,
maintains a deduplicated alert list, and lets the operator resolve alerts,
sending an outbound notice over the socket.

The embedding below follows the source handler statement by statement:
`demux` is the header/slice stage, `jsonParse` models ECMAScript
`JSON.parse`, `utf8Decode` models `TextDecoder`, `handlerAlerts` is the
alert-creation block, `processBlob` is the whole `ws.onmessage` body for a
Blob, and `Sys`/`step` is the surrounding session (socket state, pending
image decodes, paints, outbound messages).
-/

namespace CCTV

/-- JSON values as produced by `JSON.parse`.  Numbers keep their source
literal text: the client only ever feeds numbers through string
interpolation, and no property below depends on JS numeral
re-normalisation (e.g. `1.50` printing as `1.5`). -/
inductive JVal where
  | null
  | bool (b : Bool)
  | num (raw : String)
  | str (s : String)
  | arr (elems : List JVal)
  | obj (fields : List (String × JVal))
deriving Repr, Inhabited

/-- Whitespace accepted by the JSON grammar. -/
def jsonWs (c : Char) : Bool :=
  c = ' ' || c = '\t' || c = '\n' || c = '\r'

/-- Skip JSON whitespace. -/
def skipWs : List Char → List Char
  | [] => []
  | c :: cs => if jsonWs c then skipWs cs else c :: cs

/-- Value of a hexadecimal digit. -/
def hexVal (c : Char) : Option Nat :=
  if '0' ≤ c ∧ c ≤ '9' then some (c.toNat - '0'.toNat)
  else if 'a' ≤ c ∧ c ≤ 'f' then some (c.toNat - 'a'.toNat + 10)
  else if 'A' ≤ c ∧ c ≤ 'F' then some (c.toNat - 'A'.toNat + 10)
  else none

/-- Parse the body of a JSON string literal (after the opening quote) into
UTF-16 code units; `\uXXXX` escapes may contribute surrogate halves. -/
def parseStrUnits : Nat → List Char → Option (List Nat × List Char)
  | 0, _ => none
  | _, [] => none
  | fuel+1, c :: rest =>
    if c = '"' then some ([], rest)
    else if c = '\\' then
      match rest with
      | [] => none
      | e :: rest2 =>
        let esc : Option (Nat × List Char) :=
          if e = '"' then some (34, rest2)
          else if e = '\\' then some (92, rest2)
          else if e = '/' then some (47, rest2)
          else if e = 'b' then some (8, rest2)
          else if e = 'f' then some (12, rest2)
          else if e = 'n' then some (10, rest2)
          else if e = 'r' then some (13, rest2)
          else if e = 't' then some (9, rest2)
          else if e = 'u' then
            match rest2 with
            | h1 :: h2 :: h3 :: h4 :: rest3 =>
              match hexVal h1, hexVal h2, hexVal h3, hexVal h4 with
              | some a, some b, some c2, some d =>
                  some (4096 * a + 256 * b + 16 * c2 + d, rest3)
              | _, _, _, _ => none
            | _ => none
          else none
        match esc with
        | some (u, rest3) =>
          match parseStrUnits fuel rest3 with
          | some (us, rest4) => some (u :: us, rest4)
          | none => none
        | none => none
    else if c.toNat < 32 then none
    else
      match parseStrUnits fuel rest with
      | some (us, rest4) => some (c.toNat :: us, rest4)
      | none => none

/-- Combine UTF-16 code units into characters.  A well-matched surrogate
pair yields its code point; a lone surrogate (unrepresentable in a Lean
`String`, and never produced by the client's inputs) maps to U+FFFD.  The
fuel bounds recursion and is instantiated to the unit count. -/
def unitsToCharsAux : Nat → List Nat → List Char
  | 0, _ => []
  | _, [] => []
  | fuel+1, u :: us =>
    if 0xD800 ≤ u ∧ u ≤ 0xDBFF then
      match us with
      | v :: us2 =>
        if 0xDC00 ≤ v ∧ v ≤ 0xDFFF then
          Char.ofNat (0x10000 + (u - 0xD800) * 1024 + (v - 0xDC00)) ::
            unitsToCharsAux fuel us2
        else Char.ofNat 0xFFFD :: unitsToCharsAux fuel (v :: us2)
      | [] => [Char.ofNat 0xFFFD]
    else if 0xDC00 ≤ u ∧ u ≤ 0xDFFF then
      Char.ofNat 0xFFFD :: unitsToCharsAux fuel us
    else Char.ofNat u :: unitsToCharsAux fuel us

/-- Combine UTF-16 code units into characters. -/
def unitsToChars (us : List Nat) : List Char :=
  unitsToCharsAux (us.length + 1) us

/-- Longest run of decimal digits at the front. -/
def spanDigits : List Char → List Char × List Char
  | [] => ([], [])
  | c :: cs =>
    if '0' ≤ c ∧ c ≤ '9' then
      let p := spanDigits cs
      (c :: p.1, p.2)
    else ([], c :: cs)

/-- Integer part of a JSON number: `0` alone, or a nonzero leading digit
followed by digits. -/
def parseIntPart : List Char → Option (List Char × List Char)
  | [] => none
  | c :: cs =>
    if c = '0' then some ([c], cs)
    else if '1' ≤ c ∧ c ≤ '9' then
      let p := spanDigits cs
      some (c :: p.1, p.2)
    else none

/-- Optional fractional part of a JSON number. -/
def parseFrac : List Char → Option (List Char × List Char)
  | '.' :: cs =>
    match spanDigits cs with
    | ([], _) => none
    | (ds, rest) => some ('.' :: ds, rest)
  | cs => some ([], cs)

/-- Optional exponent part of a JSON number. -/
def parseExp : List Char → Option (List Char × List Char)
  | [] => some ([], [])
  | c :: cs =>
    if c = 'e' ∨ c = 'E' then
      match cs with
      | [] => none
      | s :: cs2 =>
        if s = '+' ∨ s = '-' then
          match spanDigits cs2 with
          | ([], _) => none
          | (ds, rest) => some (c :: s :: ds, rest)
        else
          match spanDigits (s :: cs2) with
          | ([], _) => none
          | (ds, rest) => some (c :: ds, rest)
    else some ([], c :: cs)

/-- Parse a JSON numeral, keeping its literal text. -/
def parseNumber (cs : List Char) : Option (String × List Char) :=
  let sp : List Char × List Char :=
    match cs with
    | '-' :: rest => (['-'], rest)
    | _ => ([], cs)
  match parseIntPart sp.2 with
  | none => none
  | some (ip, cs2) =>
    match parseFrac cs2 with
    | none => none
    | some (fp, cs3) =>
      match parseExp cs3 with
      | none => none
      | some (ep, cs4) => some (String.mk (sp.1 ++ ip ++ fp ++ ep), cs4)

mutual

/-- Parse one JSON value (the ECMAScript `JSON.parse` grammar); the fuel
bounds recursion depth and is instantiated to more than the input length. -/
def parseVal : Nat → List Char → Option (JVal × List Char)
  | 0, _ => none
  | fuel+1, cs =>
    match skipWs cs with
    | [] => none
    | c :: rest =>
      if c = 'n' then
        match rest with
        | 'u' :: 'l' :: 'l' :: r => some (JVal.null, r)
        | _ => none
      else if c = 't' then
        match rest with
        | 'r' :: 'u' :: 'e' :: r => some (JVal.bool true, r)
        | _ => none
      else if c = 'f' then
        match rest with
        | 'a' :: 'l' :: 's' :: 'e' :: r => some (JVal.bool false, r)
        | _ => none
      else if c = '"' then
        match parseStrUnits (rest.length + 1) rest with
        | some (us, r) => some (JVal.str (String.mk (unitsToChars us)), r)
        | none => none
      else if c = '[' then
        match skipWs rest with
        | ']' :: r => some (JVal.arr [], r)
        | r2 =>
          match parseElems fuel r2 with
          | some (vs, r) => some (JVal.arr vs, r)
          | none => none
      else if c = '\x7b' then
        match skipWs rest with
        | '\x7d' :: r => some (JVal.obj [], r)
        | r2 =>
          match parseFields fuel r2 with
          | some (fs, r) => some (JVal.obj fs, r)
          | none => none
      else
        match parseNumber (c :: rest) with
        | some (raw, r) => some (JVal.num raw, r)
        | none => none

/-- Parse the elements of a nonempty JSON array, up to and including `]`. -/
def parseElems : Nat → List Char → Option (List JVal × List Char)
  | 0, _ => none
  | fuel+1, cs =>
    match parseVal fuel cs with
    | none => none
    | some (v, r) =>
      match skipWs r with
      | ',' :: r2 =>
        match parseElems fuel r2 with
        | some (vs, r3) => some (v :: vs, r3)
        | none => none
      | ']' :: r2 => some ([v], r2)
      | _ => none

/-- Parse the members of a nonempty JSON object, up to and including the
closing brace. -/
def parseFields : Nat → List Char → Option (List (String × JVal) × List Char)
  | 0, _ => none
  | fuel+1, cs =>
    match skipWs cs with
    | '"' :: r =>
      match parseStrUnits (r.length + 1) r with
      | none => none
      | some (us, r2) =>
        match skipWs r2 with
        | ':' :: r3 =>
          match parseVal fuel r3 with
          | none => none
          | some (v, r4) =>
            match skipWs r4 with
            | ',' :: r5 =>
              match parseFields fuel r5 with
              | some (fs, r6) => some ((String.mk (unitsToChars us), v) :: fs, r6)
              | none => none
            | '\x7d' :: r5 => some ([(String.mk (unitsToChars us), v)], r5)
            | _ => none
        | _ => none
    | _ => none

end

/-- ECMAScript `JSON.parse`: the parsed value, or `none` exactly where
`JSON.parse` throws (in particular on the empty string and on trailing
garbage). -/
def jsonParse (s : String) : Option JVal :=
  match parseVal (s.data.length + 8) s.data with
  | some (v, rest) => if skipWs rest = [] then some v else none
  | none => none

/-- WHATWG `TextDecoder` (utf-8, non-fatal) on a list of octets: invalid
sequences decode to U+FFFD and decoding never throws. -/
def utf8DecodeAux : Nat → List Nat → List Char
  | 0, _ => []
  | _, [] => []
  | fuel+1, b :: bs =>
    if b < 0x80 then Char.ofNat b :: utf8DecodeAux fuel bs
    else if 0xC2 ≤ b ∧ b ≤ 0xDF then
      match bs with
      | [] => [Char.ofNat 0xFFFD]
      | b2 :: bs2 =>
        if 0x80 ≤ b2 ∧ b2 ≤ 0xBF then
          Char.ofNat ((b - 0xC0) * 64 + (b2 - 0x80)) :: utf8DecodeAux fuel bs2
        else Char.ofNat 0xFFFD :: utf8DecodeAux fuel bs
    else if 0xE0 ≤ b ∧ b ≤ 0xEF then
      let lo := if b = 0xE0 then 0xA0 else 0x80
      let hi := if b = 0xED then 0x9F else 0xBF
      match bs with
      | [] => [Char.ofNat 0xFFFD]
      | b2 :: bs2 =>
        if lo ≤ b2 ∧ b2 ≤ hi then
          match bs2 with
          | [] => [Char.ofNat 0xFFFD]
          | b3 :: bs3 =>
            if 0x80 ≤ b3 ∧ b3 ≤ 0xBF then
              Char.ofNat ((b - 0xE0) * 4096 + (b2 - 0x80) * 64 + (b3 - 0x80)) ::
                utf8DecodeAux fuel bs3
            else Char.ofNat 0xFFFD :: utf8DecodeAux fuel bs2
        else Char.ofNat 0xFFFD :: utf8DecodeAux fuel bs
    else if 0xF0 ≤ b ∧ b ≤ 0xF4 then
      let lo := if b = 0xF0 then 0x90 else 0x80
      let hi := if b = 0xF4 then 0x8F else 0xBF
      match bs with
      | [] => [Char.ofNat 0xFFFD]
      | b2 :: bs2 =>
        if lo ≤ b2 ∧ b2 ≤ hi then
          match bs2 with
          | [] => [Char.ofNat 0xFFFD]
          | b3 :: bs3 =>
            if 0x80 ≤ b3 ∧ b3 ≤ 0xBF then
              match bs3 with
              | [] => [Char.ofNat 0xFFFD]
              | b4 :: bs4 =>
                if 0x80 ≤ b4 ∧ b4 ≤ 0xBF then
                  Char.ofNat ((b - 0xF0) * 262144 + (b2 - 0x80) * 4096 +
                    (b3 - 0x80) * 64 + (b4 - 0x80)) :: utf8DecodeAux fuel bs4
                else Char.ofNat 0xFFFD :: utf8DecodeAux fuel bs3
            else Char.ofNat 0xFFFD :: utf8DecodeAux fuel bs2
        else Char.ofNat 0xFFFD :: utf8DecodeAux fuel bs
    else Char.ofNat 0xFFFD :: utf8DecodeAux fuel bs

/-- `new TextDecoder().decode(...)` as called by the handler. -/
def utf8Decode (bs : List Nat) : String :=
  String.mk (utf8DecodeAux (bs.length + 1) bs)

/-- Property access `v.k` as the handler performs it on parsed JSON:
objects yield the named member (last occurrence wins, as `JSON.parse`
keeps the last duplicate key); every non-object value yields undefined
(`none`).  Access on `null` throws in JS and is handled at each use
site of this function. -/
def jsGetField : JVal → String → Option JVal
  | JVal.obj fs, k => (fs.reverse.find? (fun f => f.1 == k)).map (fun f => f.2)
  | _, _ => none

/-- Optional chaining `x?.k` on a possibly-undefined value
(`none` = undefined): short-circuits on undefined and `null`. -/
def optChainField : Option JVal → String → Option JVal
  | none, _ => none
  | some JVal.null, _ => none
  | some v, k => jsGetField v k

/-- Whether a JSON numeral denotes zero (sign and exponent never affect
zeroness; every mantissa digit must be 0). -/
def numLitIsZero (raw : String) : Bool :=
  let noSign : List Char :=
    match raw.data with
    | '-' :: cs => cs
    | cs => cs
  let mant := noSign.takeWhile (fun c => c != 'e' && c != 'E')
  mant.all (fun c => c == '0' || c == '.')

/-- JS truthiness of a possibly-undefined parsed-JSON value, as tested by
`if (payload.alerts?.emergency_detected)`. -/
def jsTruthy : Option JVal → Bool
  | none => false
  | some JVal.null => false
  | some (JVal.bool b) => b
  | some (JVal.num raw) => !(numLitIsZero raw)
  | some (JVal.str s) => s != ""
  | some (JVal.arr _) => true
  | some (JVal.obj _) => true

mutual

/-- JS `ToString` of a parsed-JSON value, as applied by the template
literal interpolating `payload.frame_id` and `payload.unix_time`.
Numbers print their JSON literal text (see `JVal.num`); arrays stringify
by joining their elements with commas, `null` elements printing empty;
plain objects print `[object Object]`. -/
def jsToStringVal : JVal → String
  | JVal.null => "null"
  | JVal.bool true => "true"
  | JVal.bool false => "false"
  | JVal.num raw => raw
  | JVal.str s => s
  | JVal.arr xs => jsToStringElems xs
  | JVal.obj _ => "[object Object]"

/-- `Array.prototype.join(",")` over stringified elements. -/
def jsToStringElems : List JVal → String
  | [] => ""
  | [JVal.null] => ""
  | [v] => jsToStringVal v
  | JVal.null :: vs => "," ++ jsToStringElems vs
  | v :: vs => jsToStringVal v ++ "," ++ jsToStringElems vs

end

/-- JS `ToString` lifted to possibly-undefined values: interpolating an
absent property prints `undefined`. -/
def jsToString : Option JVal → String
  | none => "undefined"
  | some v => jsToStringVal v

/-- Big-endian 32-bit read of the first four octets:
`new DataView(arrayBuffer).getUint32(0, false)`. -/
def be32 (data : List Nat) : Nat :=
  (data.getD 0 0 % 256) * 16777216 + (data.getD 1 0 % 256) * 65536 +
    (data.getD 2 0 % 256) * 256 + data.getD 3 0 % 256

/-- Output of the header/slice stage of `ws.onmessage`. -/
structure DemuxOut where
  jsonLen : Nat
  metaBytes : List Nat
  imgBytes : List Nat
deriving Repr, DecidableEq

/-- The header/slice stage of `ws.onmessage`: `getUint32(0, false)` throws
(`none`) when the buffer has fewer than 4 bytes; otherwise
`arrayBuffer.slice(4, 4 + jsonLen)` and `arrayBuffer.slice(4 + jsonLen)`
clamp their ranges to the buffer, so no length validation ever fails. -/
def demux (data : List Nat) : Option DemuxOut :=
  if data.length < 4 then none
  else some ⟨be32 data, (data.drop 4).take (be32 data), data.drop (4 + be32 data)⟩

/-- One entry of the `alerts` React state. -/
structure Alert where
  id : String
  class_name : String
  severity : String
  location : String
  time : String
  desc : String
deriving Repr, DecidableEq

/-- The emergency-class list tested by
`["Fire", "Fall", "Accident", "Violence", "Unconsciousness"].includes(className)`. -/
def emergencyClasses : List String :=
  ["Fire", "Fall", "Accident", "Violence", "Unconsciousness"]

/-- `` `evt_${payload.frame_id}_${payload.unix_time}` ``. -/
def eventId (payload : JVal) : String :=
  "evt_" ++ jsToString (jsGetField payload "frame_id") ++ "_" ++
    jsToString (jsGetField payload "unix_time")

/-- The alert object literal pushed by `setAlerts`.  `fmtT` abstracts the
platform call `new Date(payload.timestamp).toLocaleTimeString(...)`,
taking the raw `timestamp` property. -/
def mkAlert (fmtT : Option JVal → String) (payload : JVal) (className : String) : Alert :=
  { id := eventId payload
    class_name := className
    severity := "HIGH"
    location := "ROAD 1"
    time := fmtT (jsGetField payload "timestamp")
    desc := className ++ " emergency triggered." }

/-- The body of one `forEach` iteration given the looked-up
`className = det.class_name` (`none` = undefined): when it is one of the
emergency strings, the functional `setAlerts` update runs — skip when an
alert with that class is already present, else prepend a new alert; any
other `className` fails the `includes` test and changes nothing. -/
def applyDetUpdate (fmtT : Option JVal → String) (payload : JVal)
    (alerts : List Alert) (className : Option JVal) : List Alert :=
  match className with
  | some (JVal.str s) =>
    if emergencyClasses.contains s then
      if alerts.any (fun a => a.class_name == s) then alerts
      else mkAlert fmtT payload s :: alerts
    else alerts
  | _ => alerts

/-- One iteration of `payload.detections.forEach(det => ...)`:
`none` models the TypeError thrown by `det.class_name` when `det` is
`null`; otherwise the iteration applies `applyDetUpdate` to the looked-up
class name. -/
def detStep (fmtT : Option JVal → String) (payload : JVal) (alerts : List Alert)
    (det : JVal) : Option (List Alert) :=
  match det with
  | JVal.null => none
  | _ => some (applyDetUpdate fmtT payload alerts (jsGetField det "class_name"))

/-- The whole `forEach` loop.  React applies queued functional updates in
order, so each iteration sees the previous iteration's list.  The `Bool`
records whether the loop threw (aborting the rest of the handler);
updates enqueued before the throw are kept, as React does not roll them
back. -/
def forEachDets (fmtT : Option JVal → String) (payload : JVal) :
    List Alert → List JVal → List Alert × Bool
  | alerts, [] => (alerts, false)
  | alerts, d :: ds =>
    match detStep fmtT payload alerts d with
    | none => (alerts, true)
    | some a => forEachDets fmtT payload a ds

/-- The alert block of `ws.onmessage`: guard on
`payload.alerts?.emergency_detected` being truthy, then iterate over
`payload.detections`.  `payload.alerts` throws on a `null` payload, and
`payload.detections.forEach` throws when `detections` is not an array;
the `Bool` records such a throw. -/
def handlerAlerts (fmtT : Option JVal → String) (payload : JVal)
    (alerts : List Alert) : List Alert × Bool :=
  match payload with
  | JVal.null => (alerts, true)
  | _ =>
    if jsTruthy (optChainField (jsGetField payload "alerts") "emergency_detected") then
      match jsGetField payload "detections" with
      | some (JVal.arr ds) => forEachDets fmtT payload alerts ds
      | _ => (alerts, true)
    else (alerts, false)

/-- The complete `ws.onmessage` body for Blob data: demux, decode the
metadata slice, `JSON.parse` it, run the alert block, and, when nothing
threw, hand the image slice to `createImageBitmap`.  Returns the new
alert list and the image payload submitted for decoding (`none` when a
throw aborted the handler before the image stage). -/
def processBlob (fmtT : Option JVal → String) (alerts : List Alert)
    (data : List Nat) : List Alert × Option (List Nat) :=
  match demux data with
  | none => (alerts, none)
  | some d =>
    match jsonParse (utf8Decode d.metaBytes) with
    | none => (alerts, none)
    | some payload =>
      let r := handlerAlerts fmtT payload alerts
      (r.1, if r.2 then none else some d.imgBytes)

/-- Lowercase hexadecimal digit. -/
def hexDigit (n : Nat) : Char :=
  if n < 10 then Char.ofNat (48 + n) else Char.ofNat (87 + n)

/-- `JSON.stringify` escaping of one character inside a string literal. -/
def jsonEscapeChar (c : Char) : List Char :=
  if c = '"' then ['\\', '"']
  else if c = '\\' then ['\\', '\\']
  else if c = '\x08' then ['\\', 'b']
  else if c = '\x0c' then ['\\', 'f']
  else if c = '\n' then ['\\', 'n']
  else if c = '\r' then ['\\', 'r']
  else if c = '\t' then ['\\', 't']
  else if c.toNat < 32 then
    ['\\', 'u', '0', '0', hexDigit (c.toNat / 16), hexDigit (c.toNat % 16)]
  else [c]

/-- `JSON.stringify` of a string. -/
def jsonQuote (s : String) : String :=
  String.mk ('"' :: (s.data.map jsonEscapeChar).flatten ++ ['"'])

/-- `JSON.stringify({ action: "resolve", event_id: eventId })` as sent by
`handleResolve`. -/
def resolveMsg (eventId : String) : String :=
  "\x7b\"action\":\"resolve\",\"event_id\":" ++ jsonQuote eventId ++ "\x7d"

/-- Observable session state: the two React states (`alerts`,
`systemStatus`), the socket (`socketOpen` models `readyState === OPEN`),
whether the component is still mounted (`canvasRef.current` non-null),
image payloads awaiting `createImageBitmap` + `requestAnimationFrame`,
the frames actually painted, and the outbound text frames sent. -/
structure Sys where
  alerts : List Alert
  systemStatus : String
  socketOpen : Bool
  mounted : Bool
  pendingDecodes : List (List Nat)
  painted : List (List Nat)
  outbound : List String
deriving Repr, DecidableEq

/-- State at mount: `useState([])`, `useState("Connecting...")`, socket
not yet open, nothing pending. -/
def initSys : Sys :=
  { alerts := []
    systemStatus := "Connecting..."
    socketOpen := false
    mounted := true
    pendingDecodes := []
    painted := []
    outbound := [] }

/-- Discrete events of the single-threaded session. -/
inductive Event where
  | wsOpen
  | wsClose
  | message (isBlob : Bool) (data : List Nat)
  | decodeDone
  | unmount
  | resolve (eventId : String)

/-- `ws.onmessage`: the transport delivers no message events after close
(WebSocket contract), non-Blob data fails the `instanceof Blob` test and
is ignored, and Blob data runs `processBlob`, queueing any submitted
image payload for decoding. -/
def stepMessage (fmtT : Option JVal → String) (s : Sys) (isBlob : Bool)
    (data : List Nat) : Sys :=
  if s.socketOpen = false then s
  else if isBlob = false then s
  else
    let r := processBlob fmtT s.alerts data
    { s with alerts := r.1, pendingDecodes := s.pendingDecodes ++ r.2.toList }

/-- Completion of the oldest pending `createImageBitmap` followed by its
`requestAnimationFrame` callback: the frame is painted when the payload
decodes (`decodes`) and the canvas is still mounted — the callback checks
only `canvasRef.current`, never the connection state.  An undecodable
payload rejects and the frame is silently dropped. -/
def stepDecodeDone (decodes : List Nat → Bool) (s : Sys) : Sys :=
  match s.pendingDecodes with
  | [] => s
  | p :: rest =>
    { s with pendingDecodes := rest
             painted := s.painted ++ (if decodes p ∧ s.mounted then [p] else []) }

/-- `handleResolve(eventId)`: send the resolve notice first (only when the
socket is OPEN), then unconditionally filter the alert list. -/
def stepResolve (s : Sys) (eventId : String) : Sys :=
  { s with outbound := s.outbound ++ (if s.socketOpen then [resolveMsg eventId] else [])
           alerts := s.alerts.filter (fun a => a.id != eventId) }

/-- One event of the session: `ws.onopen`, `ws.onclose` (pending decodes
are not cancelled by the source), message receipt, decode completion,
effect cleanup on unmount, and the operator's resolve action. -/
def step (decodes : List Nat → Bool) (fmtT : Option JVal → String) (s : Sys) :
    Event → Sys
  | Event.wsOpen => { s with systemStatus := "Monitoring Active", socketOpen := true }
  | Event.wsClose => { s with systemStatus := "Disconnected", socketOpen := false }
  | Event.message b d => stepMessage fmtT s b d
  | Event.decodeDone => stepDecodeDone decodes s
  | Event.unmount => { s with mounted := false, socketOpen := false }
  | Event.resolve eid => stepResolve s eid

/-- Run a sequence of events from the mount state. -/
def run (decodes : List Nat → Bool) (fmtT : Option JVal → String)
    (es : List Event) : Sys :=
  es.foldl (step decodes fmtT) initSys

/-- Local part of resolution: `prev.filter(alert => alert.id !== eventId)`. -/
def resolveLocal (eventId : String) (alerts : List Alert) : List Alert :=
  alerts.filter (fun a => a.id != eventId)

/-- No two active alerts share a class label. -/
def AlertsOk (l : List Alert) : Prop :=
  l.Pairwise (fun a b => a.class_name ≠ b.class_name)

/-- ASCII bytes of a string (all test vectors below are pure ASCII). -/
def asciiBytes (s : String) : List Nat :=
  s.data.map Char.toNat

/-- Scenario-4 style message: header declares L = 50 but the message is
only 40 bytes long (36 bytes of filler after the header). -/
def msg40 : List Nat :=
  [0, 0, 0, 50] ++ List.replicate 36 65

/-- A message whose header declares L = 0, followed by a nonempty image
payload. -/
def msgL0 : List Nat :=
  [0, 0, 0, 0] ++ [255, 216, 255, 224]

/-- The scenario-2 metadata document. -/
def json7 : String :=
  "\x7b\"frame_id\":\"7\",\"unix_time\":\"1000\",\"alerts\":\x7b\"emergency_detected\":true\x7d,\"detections\":[\x7b\"class_name\":\"Fire\"\x7d]\x7d"

/-- The scenario-2 message: correct header, the metadata above, and a
3-byte image payload. -/
def msg7 : List Nat :=
  [0, 0, 0, (asciiBytes json7).length] ++ asciiBytes json7 ++ [255, 216, 255]

/-- A well-formed message with metadata `{}` (no alert fields) and a
3-byte image payload. -/
def msgPlain : List Nat :=
  [0, 0, 0, 2] ++ [123, 125] ++ [1, 2, 3]

/-- A detection of class `Fire`. -/
def dFire : JVal := JVal.obj [("class_name", JVal.str "Fire")]

/-- A detection of class `Fall`. -/
def dFall : JVal := JVal.obj [("class_name", JVal.str "Fall")]

/-- The scenario-2 metadata record (the parse of `json7`). -/
def payload7 : JVal :=
  JVal.obj
    [("frame_id", JVal.str "7"), ("unix_time", JVal.str "1000"),
     ("alerts", JVal.obj [("emergency_detected", JVal.bool true)]),
     ("detections", JVal.arr [dFire])]

/-- A metadata record with two different emergency classes in one frame. -/
def payloadFF : JVal :=
  JVal.obj
    [("frame_id", JVal.str "9"), ("unix_time", JVal.str "2000"),
     ("alerts", JVal.obj [("emergency_detected", JVal.bool true)]),
     ("detections", JVal.arr [dFire, dFall])]

theorem jsGetField_obj {d : JVal} {k : String} {v : JVal}
    (h : jsGetField d k = some v) : ∃ fs, d = JVal.obj fs := by
  cases d <;> simp [jsGetField] at h
  exact ⟨_, rfl⟩

theorem applyDetUpdate_sub (fmtT : Option JVal → String) (p : JVal)
    (al : List Alert) (cl : Option JVal) :
    ∀ x ∈ al, x ∈ applyDetUpdate fmtT p al cl := by
  rcases cl with _ | v
  · exact fun x hx => hx
  · cases v with
    | str s =>
      simp only [applyDetUpdate]
      split
      · split
        · exact fun x hx => hx
        · exact fun x hx => List.mem_cons_of_mem _ hx
      · exact fun x hx => hx
    | null => exact fun x hx => hx
    | bool b => exact fun x hx => hx
    | num raw => exact fun x hx => hx
    | arr es => exact fun x hx => hx
    | obj fs => exact fun x hx => hx

theorem applyDetUpdate_alertsOk {fmtT : Option JVal → String} {p : JVal}
    {al : List Alert} (cl : Option JVal) (hok : AlertsOk al) :
    AlertsOk (applyDetUpdate fmtT p al cl) := by
  rcases cl with _ | v
  · exact hok
  · cases v with
    | str s =>
      simp only [applyDetUpdate]
      split
      · split
        · exact hok
        · rename_i hany
          refine List.Pairwise.cons ?_ hok
          intro b hb heq
          rw [Bool.not_eq_true] at hany
          have hmem : (al.any fun a => a.class_name == s) = true :=
            List.any_eq_true.mpr ⟨b, hb, by simp [mkAlert] at heq; simp [heq]⟩
          rw [hany] at hmem
          exact Bool.false_ne_true hmem
      · exact hok
    | null => exact hok
    | bool b => exact hok
    | num raw => exact hok
    | arr es => exact hok
    | obj fs => exact hok

theorem applyDetUpdate_self {fmtT : Option JVal → String} {p : JVal}
    (al : List Alert) (cl : Option JVal) :
    applyDetUpdate fmtT p (applyDetUpdate fmtT p al cl) cl =
      applyDetUpdate fmtT p al cl := by
  rcases cl with _ | v
  · rfl
  · cases v with
    | str s =>
      by_cases hem : emergencyClasses.contains s = true
      · by_cases hany : (al.any fun a => a.class_name == s) = true
        · simp only [applyDetUpdate, if_pos hem, if_pos hany]
        · rw [Bool.not_eq_true] at hany
          simp only [applyDetUpdate, if_pos hem, hany]
          have hcons : ((mkAlert fmtT p s :: al).any fun a => a.class_name == s) = true := by
            simp [List.any_cons, mkAlert]
          simp only [Bool.false_eq_true, if_false, if_pos hcons]
      · simp only [applyDetUpdate, if_neg hem]
    | null => rfl
    | bool b => rfl
    | num raw => rfl
    | arr es => rfl
    | obj fs => rfl

theorem applyDetUpdate_superset {fmtT : Option JVal → String} {p : JVal}
    {a1 A : List Alert} (cl : Option JVal)
    (h : applyDetUpdate fmtT p a1 cl = a1) (hsub : ∀ x ∈ a1, x ∈ A) :
    applyDetUpdate fmtT p A cl = A := by
  rcases cl with _ | v
  · rfl
  · cases v with
    | str s =>
      simp only [applyDetUpdate] at h ⊢
      by_cases hem : emergencyClasses.contains s = true
      · rw [if_pos hem] at h ⊢
        by_cases hany : (a1.any fun a => a.class_name == s) = true
        · obtain ⟨a, ha, hpa⟩ := List.any_eq_true.mp hany
          have hA : (A.any fun a => a.class_name == s) = true :=
            List.any_eq_true.mpr ⟨a, hsub a ha, hpa⟩
          rw [if_pos hA]
        · rw [Bool.not_eq_true] at hany
          rw [hany] at h
          simp only [Bool.false_eq_true, if_false] at h
          exact absurd h (List.cons_ne_self _ _)
      · rw [if_neg hem]
    | null => rfl
    | bool b => rfl
    | num raw => rfl
    | arr es => rfl
    | obj fs => rfl

theorem detStep_ne_null {fmtT : Option JVal → String} {p : JVal}
    {al a2 : List Alert} {d : JVal} (h : detStep fmtT p al d = some a2) :
    d ≠ JVal.null := by
  rintro rfl; simp [detStep] at h

theorem detStep_eq_some (fmtT : Option JVal → String) (p : JVal)
    (al : List Alert) {d : JVal} (hnn : d ≠ JVal.null) :
    detStep fmtT p al d =
      some (applyDetUpdate fmtT p al (jsGetField d "class_name")) := by
  cases d <;> first | exact absurd rfl hnn | rfl

theorem forEachDets_sub (fmtT : Option JVal → String) (p : JVal) :
    ∀ (ds : List JVal) (al : List Alert), ∀ x ∈ al, x ∈ (forEachDets fmtT p al ds).1 := by
  intro ds
  induction ds with
  | nil => exact fun al x hx => hx
  | cons d ds ih =>
    intro al x hx
    by_cases hnn : d = JVal.null
    · subst hnn
      simp only [forEachDets, detStep]
      exact hx
    · simp only [forEachDets, detStep_eq_some fmtT p al hnn]
      exact ih _ x (applyDetUpdate_sub fmtT p al _ x hx)

theorem forEachDets_alertsOk (fmtT : Option JVal → String) (p : JVal) :
    ∀ (ds : List JVal) (al : List Alert), AlertsOk al →
      AlertsOk (forEachDets fmtT p al ds).1 := by
  intro ds
  induction ds with
  | nil => exact fun al h => h
  | cons d ds ih =>
    intro al hok
    by_cases hnn : d = JVal.null
    · subst hnn
      simp only [forEachDets, detStep]
      exact hok
    · simp only [forEachDets, detStep_eq_some fmtT p al hnn]
      exact ih _ (applyDetUpdate_alertsOk _ hok)

theorem forEachDets_idem (fmtT : Option JVal → String) (p : JVal) :
    ∀ (ds : List JVal) (al : List Alert),
      forEachDets fmtT p (forEachDets fmtT p al ds).1 ds = forEachDets fmtT p al ds := by
  intro ds
  induction ds with
  | nil => exact fun al => rfl
  | cons d ds ih =>
    intro al
    by_cases hnn : d = JVal.null
    · subst hnn
      simp only [forEachDets, detStep]
    · have hstep := detStep_eq_some fmtT p al hnn
      simp only [forEachDets, hstep]
      have hstep2 : detStep fmtT p
          (forEachDets fmtT p (applyDetUpdate fmtT p al (jsGetField d "class_name")) ds).1 d =
          some (forEachDets fmtT p
            (applyDetUpdate fmtT p al (jsGetField d "class_name")) ds).1 := by
        rw [detStep_eq_some fmtT p _ hnn]
        congr 1
        exact applyDetUpdate_superset _ (applyDetUpdate_self al _)
          (forEachDets_sub fmtT p ds _)
      simp only [hstep2]
      exact ih _

theorem handlerAlerts_alertsOk {fmtT : Option JVal → String} {p : JVal}
    {al : List Alert} (hok : AlertsOk al) : AlertsOk (handlerAlerts fmtT p al).1 := by
  cases p with
  | obj fs =>
    simp only [handlerAlerts]
    split
    · split
      · exact forEachDets_alertsOk _ _ _ _ hok
      · exact hok
    · exact hok
  | null => exact hok
  | bool b => exact hok
  | num raw => exact hok
  | str s => exact hok
  | arr es => exact hok

theorem handlerAlerts_idem (fmtT : Option JVal → String) (p : JVal)
    (al : List Alert) :
    handlerAlerts fmtT p (handlerAlerts fmtT p al).1 = handlerAlerts fmtT p al := by
  cases p with
  | obj fs =>
    simp only [handlerAlerts]
    by_cases ht :
        jsTruthy (optChainField (jsGetField (JVal.obj fs) "alerts") "emergency_detected") = true
    · simp only [if_pos ht]
      rcases hdet : jsGetField (JVal.obj fs) "detections" with _ | v
      · rfl
      · cases v with
        | arr ds => exact forEachDets_idem fmtT _ ds al
        | null => rfl
        | bool b => rfl
        | num raw => rfl
        | str s => rfl
        | obj gs => rfl
    · simp only [if_neg ht]
  | null => rfl
  | bool b => rfl
  | num raw => rfl
  | str s => rfl
  | arr es => rfl

theorem processBlob_alertsOk {fmtT : Option JVal → String} {al : List Alert}
    {data : List Nat} (hok : AlertsOk al) : AlertsOk (processBlob fmtT al data).1 := by
  unfold processBlob
  split
  · exact hok
  · split
    · exact hok
    · exact handlerAlerts_alertsOk hok

theorem step_alertsOk {decodes : List Nat → Bool} {fmtT : Option JVal → String}
    {s : Sys} (e : Event) (hok : AlertsOk s.alerts) :
    AlertsOk (step decodes fmtT s e).alerts := by
  cases e with
  | wsOpen => exact hok
  | wsClose => exact hok
  | message b d =>
    simp only [step, stepMessage]
    split
    · exact hok
    · split
      · exact hok
      · exact processBlob_alertsOk hok
  | decodeDone =>
    simp only [step, stepDecodeDone]
    split
    · exact hok
    · exact hok
  | unmount => exact hok
  | resolve eid =>
    simp only [step, stepResolve]
    exact List.Pairwise.sublist (List.filter_sublist _) hok

theorem foldl_alertsOk (decodes : List Nat → Bool) (fmtT : Option JVal → String) :
    ∀ (es : List Event) (s : Sys), AlertsOk s.alerts →
      AlertsOk (List.foldl (step decodes fmtT) s es).alerts := by
  intro es
  induction es with
  | nil => exact fun s h => h
  | cons e es ih => exact fun s h => ih _ (step_alertsOk e h)

/-- C3: in every reachable state of the alert collection no two alerts
share a class label; ingesting the same metadata again changes nothing;
and a detection whose class label already has an active alert leaves the
collection unchanged (the `prev.some(...)` guard), which covers repeats
both across frames and within one metadata record. -/
theorem C3_dedup_invariant :
    (∀ (decodes : List Nat → Bool) (fmtT : Option JVal → String) (es : List Event),
        AlertsOk (run decodes fmtT es).alerts) ∧
    (∀ (fmtT : Option JVal → String) (payload : JVal) (al : List Alert),
        handlerAlerts fmtT payload (handlerAlerts fmtT payload al).1 =
          handlerAlerts fmtT payload al) ∧
    (∀ (fmtT : Option JVal → String) (payload d : JVal) (al : List Alert) (s : String),
        jsGetField d "class_name" = some (JVal.str s) →
        (al.any fun a => a.class_name == s) = true →
        detStep fmtT payload al d = some al) := by
  refine ⟨?_, ?_, ?_⟩
  · intro decodes fmtT es
    exact foldl_alertsOk decodes fmtT es initSys List.Pairwise.nil
  · intro fmtT payload al
    exact handlerAlerts_idem fmtT payload al
  · intro fmtT payload d al s hcl hany
    obtain ⟨fs, rfl⟩ := jsGetField_obj hcl
    rw [detStep_eq_some fmtT payload al (by simp), hcl]
    simp only [applyDetUpdate, hany, if_true]
    split <;> rfl

/-- Witness for C3: a second `Fire` detection against a collection that
already holds the `Fire` alert leaves the collection unchanged. -/
theorem C3_witness :
    detStep (fun _ => "") payload7 [mkAlert (fun _ => "") payload7 "Fire"] dFire =
      some [mkAlert (fun _ => "") payload7 "Fire"] :=
  C3_dedup_invariant.2.2 (fun _ => "") payload7 dFire
    [mkAlert (fun _ => "") payload7 "Fire"] "Fire" rfl rfl

/-- C5: `resolve(x)` twice leaves the alert collection in the same state
as a single `resolve(x)`, and (being a total filter) the second call
raises no error. -/
theorem C5_resolve_idempotent (s : Sys) (x : String) (l : List Alert) :
    (stepResolve (stepResolve s x) x).alerts = (stepResolve s x).alerts ∧
    resolveLocal x (resolveLocal x l) = resolveLocal x l := by
  constructor
  · simp [stepResolve, List.filter_filter]
  · simp [resolveLocal, List.filter_filter]

/-- C6: when the socket is OPEN, `handleResolve` sends exactly one text
frame, the serialization of `{action: "resolve", event_id: alertId}`,
before the local removal; when not OPEN the send is skipped; the local
filter of the collection happens unconditionally in both cases. -/
theorem C6_resolve_send (s : Sys) (eid : String) :
    (s.socketOpen = true →
      (stepResolve s eid).outbound = s.outbound ++ [resolveMsg eid]) ∧
    (s.socketOpen = false → (stepResolve s eid).outbound = s.outbound) ∧
    (stepResolve s eid).alerts = s.alerts.filter (fun a => a.id != eid) ∧
    resolveMsg "evt_7_1000" = "\x7b\"action\":\"resolve\",\"event_id\":\"evt_7_1000\"\x7d" := by
  refine ⟨?_, ?_, rfl, rfl⟩
  · intro h; simp [stepResolve, h]
  · intro h; simp [stepResolve, h]

/-- Witness for C6: with the socket open the resolve frame is sent; from
the initial (not yet open) state it is skipped. -/
theorem C6_witness :
    (stepResolve { initSys with socketOpen := true } "evt_7_1000").outbound =
      [resolveMsg "evt_7_1000"] ∧
    (stepResolve initSys "evt_7_1000").outbound = [] := by
  constructor
  · have h := (C6_resolve_send { initSys with socketOpen := true } "evt_7_1000").1 rfl
    simpa [initSys] using h
  · have h := (C6_resolve_send initSys "evt_7_1000").2.1 rfl
    simpa [initSys] using h

/-- C9: resolving an id that matches no alert still sends the outbound
resolve frame whenever the socket is open, and leaves the collection
unchanged. -/
theorem C9_resolve_missing (s : Sys) (eid : String)
    (habs : ∀ a ∈ s.alerts, a.id ≠ eid) :
    (stepResolve s eid).alerts = s.alerts ∧
    (s.socketOpen = true →
      (stepResolve s eid).outbound = s.outbound ++ [resolveMsg eid]) := by
  constructor
  · simp only [stepResolve]
    exact List.filter_eq_self.mpr (fun a ha => by simpa using habs a ha)
  · intro h; simp [stepResolve, h]

/-- Witness for C9: resolving an unknown id from an open, empty session
sends the frame and leaves the (empty) collection unchanged. -/
theorem C9_witness :
    (stepResolve { initSys with socketOpen := true } "evt_none").alerts = [] ∧
    (stepResolve { initSys with socketOpen := true } "evt_none").outbound =
      [resolveMsg "evt_none"] := by
  have h := C9_resolve_missing { initSys with socketOpen := true } "evt_none"
    (fun a ha => absurd ha (List.not_mem_nil a))
  exact ⟨h.1, by simpa [initSys] using h.2 rfl⟩

/-- C10: an inbound message whose data is not a Blob fails the
`instanceof Blob` test and is ignored entirely — the whole session state
(alerts, status, pending paints, outbound queue) is unchanged. -/
theorem C10_non_blob_ignored (fmtT : Option JVal → String) (s : Sys)
    (data : List Nat) : stepMessage fmtT s false data = s := by
  unfold stepMessage
  split
  · rfl
  · rfl

theorem applyDetUpdate_new {fmtT : Option JVal → String} {p : JVal}
    {al : List Alert} {s : String} (hem : emergencyClasses.contains s = true)
    (hany : (al.any fun a => a.class_name == s) = false) :
    applyDetUpdate fmtT p al (some (JVal.str s)) = mkAlert fmtT p s :: al := by
  simp only [applyDetUpdate, if_pos hem]
  rw [if_neg (by simp [hany])]

theorem forEachDets_cons {fmtT : Option JVal → String} {p : JVal}
    {al : List Alert} {d : JVal} {ds : List JVal} (hnn : d ≠ JVal.null) :
    forEachDets fmtT p al (d :: ds) =
      forEachDets fmtT p (applyDetUpdate fmtT p al (jsGetField d "class_name")) ds := by
  simp only [forEachDets, detStep_eq_some fmtT p al hnn]

theorem handlerAlerts_dets {fmtT : Option JVal → String} {al : List Alert}
    {ds : List JVal} {pfs : List (String × JVal)}
    (ht : jsTruthy (optChainField (jsGetField (JVal.obj pfs) "alerts")
      "emergency_detected") = true)
    (hdet : jsGetField (JVal.obj pfs) "detections" = some (JVal.arr ds)) :
    handlerAlerts fmtT (JVal.obj pfs) al = forEachDets fmtT (JVal.obj pfs) al ds := by
  simp only [handlerAlerts]
  rw [if_pos ht]
  simp only [hdet]

theorem handlerAlerts_one {fmtT : Option JVal → String} {payload d : JVal}
    {al : List Alert} {s : String}
    (ht : jsTruthy (optChainField (jsGetField payload "alerts")
      "emergency_detected") = true)
    (hdet : jsGetField payload "detections" = some (JVal.arr [d]))
    (hcl : jsGetField d "class_name" = some (JVal.str s))
    (hem : emergencyClasses.contains s = true)
    (hany : (al.any fun a => a.class_name == s) = false) :
    handlerAlerts fmtT payload al = (mkAlert fmtT payload s :: al, false) := by
  obtain ⟨pfs, rfl⟩ := jsGetField_obj hdet
  obtain ⟨dfs, rfl⟩ := jsGetField_obj hcl
  rw [handlerAlerts_dets ht hdet, forEachDets_cons (by simp), hcl,
    applyDetUpdate_new hem hany]
  rfl

theorem handlerAlerts_two {fmtT : Option JVal → String} {payload dA dB : JVal}
    {al : List Alert} {sA sB : String}
    (ht : jsTruthy (optChainField (jsGetField payload "alerts")
      "emergency_detected") = true)
    (hdet : jsGetField payload "detections" = some (JVal.arr [dA, dB]))
    (hclA : jsGetField dA "class_name" = some (JVal.str sA))
    (hclB : jsGetField dB "class_name" = some (JVal.str sB))
    (hemA : emergencyClasses.contains sA = true)
    (hemB : emergencyClasses.contains sB = true)
    (hne : sA ≠ sB)
    (hanyA : (al.any fun a => a.class_name == sA) = false)
    (hanyB : (al.any fun a => a.class_name == sB) = false) :
    handlerAlerts fmtT payload al =
      (mkAlert fmtT payload sB :: mkAlert fmtT payload sA :: al, false) := by
  obtain ⟨pfs, rfl⟩ := jsGetField_obj hdet
  obtain ⟨afs, rfl⟩ := jsGetField_obj hclA
  obtain ⟨bfs, rfl⟩ := jsGetField_obj hclB
  have hB : ((mkAlert fmtT (JVal.obj pfs) sA :: al).any
      fun a => a.class_name == sB) = false := by
    simp only [List.any_cons, mkAlert, hanyB, Bool.or_false]
    exact beq_eq_false_iff_ne.mpr hne
  rw [handlerAlerts_dets ht hdet, forEachDets_cons (by simp), hclA,
    applyDetUpdate_new hemA hanyA, forEachDets_cons (by simp), hclB,
    applyDetUpdate_new hemB hB]
  rfl

/-- C4: an emergency detection yields an alert whose id is
`"evt_" + frame_id + "_" + unix_time` (both from the metadata record),
severity fixed to HIGH, prepended to the collection; two distinct classes
A then B produce the order [B, A, ...]; and the concrete scenario-2
message produces exactly the alert `evt_7_1000`/`Fire`. -/
theorem C4_alert_construction :
    (∀ (fmtT : Option JVal → String) (payload d : JVal) (al : List Alert)
        (fid ut s : String),
      jsTruthy (optChainField (jsGetField payload "alerts")
        "emergency_detected") = true →
      jsGetField payload "detections" = some (JVal.arr [d]) →
      jsGetField d "class_name" = some (JVal.str s) →
      emergencyClasses.contains s = true →
      (al.any fun a => a.class_name == s) = false →
      jsGetField payload "frame_id" = some (JVal.str fid) →
      jsGetField payload "unix_time" = some (JVal.str ut) →
      handlerAlerts fmtT payload al = (mkAlert fmtT payload s :: al, false) ∧
      (mkAlert fmtT payload s).id = "evt_" ++ fid ++ "_" ++ ut ∧
      (mkAlert fmtT payload s).severity = "HIGH") ∧
    (∀ (fmtT : Option JVal → String) (payload dA dB : JVal) (al : List Alert)
        (sA sB : String),
      jsTruthy (optChainField (jsGetField payload "alerts")
        "emergency_detected") = true →
      jsGetField payload "detections" = some (JVal.arr [dA, dB]) →
      jsGetField dA "class_name" = some (JVal.str sA) →
      jsGetField dB "class_name" = some (JVal.str sB) →
      emergencyClasses.contains sA = true →
      emergencyClasses.contains sB = true →
      sA ≠ sB →
      (al.any fun a => a.class_name == sA) = false →
      (al.any fun a => a.class_name == sB) = false →
      handlerAlerts fmtT payload al =
        (mkAlert fmtT payload sB :: mkAlert fmtT payload sA :: al, false)) ∧
    (∀ fmtT : Option JVal → String,
      processBlob fmtT [] msg7 =
        ([⟨"evt_7_1000", "Fire", "HIGH", "ROAD 1", fmtT none,
            "Fire emergency triggered."⟩], some [255, 216, 255])) := by
  refine ⟨?_, ?_, ?_⟩
  · intro fmtT payload d al fid ut s ht hdet hcl hem hany hfid hut
    refine ⟨handlerAlerts_one ht hdet hcl hem hany, ?_, rfl⟩
    simp only [mkAlert, eventId, hfid, hut, jsToString, jsToStringVal]
  · intro fmtT payload dA dB al sA sB ht hdet hclA hclB hemA hemB hne hanyA hanyB
    exact handlerAlerts_two ht hdet hclA hclB hemA hemB hne hanyA hanyB
  · intro fmtT
    rfl

/-- Witness for C4: the scenario-2 record creates exactly the alert
`evt_7_1000` of class `Fire`. -/
theorem C4_witness :
    handlerAlerts (fun _ => "t") payload7 [] =
      ([⟨"evt_7_1000", "Fire", "HIGH", "ROAD 1", "t",
          "Fire emergency triggered."⟩], false) := by
  have h := (C4_alert_construction.1 (fun _ => "t") payload7 dFire [] "7" "1000"
    "Fire" rfl rfl rfl rfl rfl rfl rfl).1
  exact h.trans (by rfl)

/-- C8: two detections of different emergency classes in one metadata
record produce two alerts with the identical id
`"evt_" + frame_id + "_" + unix_time`, and one resolve with that id
filters out every matching alert — both at once. -/
theorem C8_shared_event_id :
    ∀ (fmtT : Option JVal → String) (payload dA dB : JVal) (al : List Alert)
        (sA sB : String),
      jsTruthy (optChainField (jsGetField payload "alerts")
        "emergency_detected") = true →
      jsGetField payload "detections" = some (JVal.arr [dA, dB]) →
      jsGetField dA "class_name" = some (JVal.str sA) →
      jsGetField dB "class_name" = some (JVal.str sB) →
      emergencyClasses.contains sA = true →
      emergencyClasses.contains sB = true →
      sA ≠ sB →
      (al.any fun a => a.class_name == sA) = false →
      (al.any fun a => a.class_name == sB) = false →
      (handlerAlerts fmtT payload al).1 =
        mkAlert fmtT payload sB :: mkAlert fmtT payload sA :: al ∧
      (mkAlert fmtT payload sA).id = eventId payload ∧
      (mkAlert fmtT payload sB).id = eventId payload ∧
      resolveLocal (eventId payload) (handlerAlerts fmtT payload al).1 =
        resolveLocal (eventId payload) al := by
  intro fmtT payload dA dB al sA sB ht hdet hclA hclB hemA hemB hne hanyA hanyB
  have h2 := @handlerAlerts_two fmtT payload dA dB al sA sB ht hdet hclA hclB
    hemA hemB hne hanyA hanyB
  refine ⟨by rw [h2], rfl, rfl, ?_⟩
  rw [h2]
  simp [resolveLocal, mkAlert, List.filter_cons]

/-- Witness for C8: the two-class record creates `Fall` and `Fire` alerts
sharing the id `evt_9_2000`, and one resolve with that id removes both. -/
theorem C8_witness :
    (handlerAlerts (fun _ => "t") payloadFF []).1 =
      [mkAlert (fun _ => "t") payloadFF "Fall",
        mkAlert (fun _ => "t") payloadFF "Fire"] ∧
    resolveLocal "evt_9_2000" (handlerAlerts (fun _ => "t") payloadFF []).1 = [] := by
  have h := C8_shared_event_id (fun _ => "t") payloadFF dFire dFall [] "Fire" "Fall"
    rfl rfl rfl rfl rfl rfl (by decide) rfl rfl
  exact ⟨h.1, h.2.2.2.trans (by rfl)⟩

/-- C1 counterexample: a 40-byte message declaring header length L = 50.
The demux step does not fail at all — `ArrayBuffer.slice` clamps, so it
returns a pair with a truncated 36-byte metadata slice and an empty
payload; there is no MalformedFrame failure and the payload length is 0,
not `40 - 4 - 50`. -/
theorem C1_counterexample :
    msg40.length = 40 ∧ be32 msg40 = 50 ∧ msg40.length < 4 + be32 msg40 ∧
    demux msg40 = some ⟨50, List.replicate 36 65, []⟩ := by
  exact ⟨rfl, rfl, by decide, rfl⟩

/-- C1 amended: for every message of at least 4 bytes the demux step
always returns a metadata/payload pair — metadata slice
`bytes[4, min(4+L, length))`, payload `bytes[4+L, length)` — whose
payload length is `length - 4 - L` when `length ≥ 4 + L` and `0`
otherwise (slices clamp; no MalformedFrame error exists).  Only a
message shorter than 4 bytes fails (the `getUint32` range error).  On
the scenario-4 message the truncated metadata fails JSON parsing, so no
alert is created, no image is submitted for painting, and the session
state stays Monitoring Active. -/
theorem C1_amended :
    (∀ data : List Nat, 4 ≤ data.length →
      demux data = some ⟨be32 data, (data.drop 4).take (be32 data),
        data.drop (4 + be32 data)⟩ ∧
      (data.drop (4 + be32 data)).length = data.length - 4 - be32 data) ∧
    (∀ data : List Nat, data.length < 4 → demux data = none) ∧
    (∀ (fmtT : Option JVal → String) (al : List Alert),
      processBlob fmtT al msg40 = (al, none)) ∧
    (∀ (decodes : List Nat → Bool) (fmtT : Option JVal → String),
      run decodes fmtT [Event.wsOpen, Event.message true msg40] =
        { initSys with systemStatus := "Monitoring Active", socketOpen := true }) := by
  refine ⟨?_, ?_, ?_, ?_⟩
  · intro data h
    constructor
    · unfold demux
      rw [if_neg (by omega)]
    · rw [List.length_drop]
      omega
  · intro data h
    unfold demux
    rw [if_pos h]
  · intro fmtT al
    rfl
  · intro decodes fmtT
    rfl

/-- Witness for C1 amended: a 5-byte message demuxes into its parts; a
2-byte message fails the header read. -/
theorem C1_witness :
    demux [0, 0, 0, 1, 65] = some ⟨1, [65], []⟩ ∧ demux [0, 0] = none := by
  refine ⟨?_, C1_amended.2.1 [0, 0] (by decide)⟩
  have h := (C1_amended.1 [0, 0, 0, 1, 65] (by decide)).1
  exact h.trans (by rfl)

/-- C2 counterexample: a message with L = 0 and a nonempty payload.
`JSON.parse("")` throws, so the handler aborts before the image stage: no
alert, and the image is never decoded or painted even with a decoder that
accepts every payload — contradicting "image still decoded and painted if
valid". -/
theorem C2_counterexample :
    jsonParse (utf8Decode []) = none ∧
    processBlob (fun _ => "") [] msgL0 = ([], none) ∧
    (run (fun _ => true) (fun _ => "")
      [Event.wsOpen, Event.message true msgL0, Event.decodeDone]).painted = [] := by
  exact ⟨rfl, rfl, rfl⟩

/-- C2 amended: for header length L = 0 the demux (slicing) stage
completes without erroring — empty metadata slice, full remaining
payload — but JSON parsing of the empty slice then throws, so no alert is
created and the image payload is never decoded or painted, whatever its
contents. -/
theorem C2_amended (data : List Nat) (fmtT : Option JVal → String)
    (al : List Alert) (hlen : 4 ≤ data.length) (hL : be32 data = 0) :
    demux data = some ⟨0, [], data.drop 4⟩ ∧
    processBlob fmtT al data = (al, none) := by
  have hdemux : demux data = some ⟨0, [], data.drop 4⟩ := by
    unfold demux
    rw [if_neg (by omega), hL]
    simp
  refine ⟨hdemux, ?_⟩
  unfold processBlob
  rw [hdemux]
  rfl

/-- Witness for C2 amended, at the concrete L = 0 message. -/
theorem C2_witness :
    demux msgL0 = some ⟨0, [], [255, 216, 255, 224]⟩ ∧
    processBlob (fun _ => "w") [] msgL0 = ([], none) := by
  have h := C2_amended msgL0 (fun _ => "w") [] (by decide) (by decide)
  exact ⟨h.1.trans (by rfl), h.2⟩

/-- C7 counterexample: the socket closes mid-stream (state becomes
Disconnected) while an image decode from the last frame is still
pending; when the decode completes it IS painted — the rAF callback
checks only that the canvas is mounted, never the connection state. -/
theorem C7_counterexample :
    (run (fun _ => true) (fun _ => "")
      [Event.wsOpen, Event.message true msgPlain, Event.wsClose]).systemStatus =
        "Disconnected" ∧
    (run (fun _ => true) (fun _ => "")
      [Event.wsOpen, Event.message true msgPlain, Event.wsClose]).pendingDecodes =
        [[1, 2, 3]] ∧
    (run (fun _ => true) (fun _ => "")
      [Event.wsOpen, Event.message true msgPlain, Event.wsClose,
        Event.decodeDone]).painted = [[1, 2, 3]] := by
  exact ⟨rfl, rfl, rfl⟩

/-- C7 amended: after the close no further inbound messages are processed
(the transport delivers none, and the handler is a no-op on a closed
socket), but a pending decode that completes after Disconnected is still
painted while the component remains mounted; only unmounting (canvas
ref gone) stops pending paints. -/
theorem C7_amended :
    (∀ (fmtT : Option JVal → String) (s : Sys) (b : Bool) (d : List Nat),
      s.socketOpen = false → stepMessage fmtT s b d = s) ∧
    (∀ (decodes : List Nat → Bool) (s : Sys) (p : List Nat) (rest : List (List Nat)),
      s.pendingDecodes = p :: rest → s.mounted = true → decodes p = true →
      (stepDecodeDone decodes s).painted = s.painted ++ [p]) ∧
    (∀ (decodes : List Nat → Bool) (s : Sys), s.mounted = false →
      (stepDecodeDone decodes s).painted = s.painted) := by
  refine ⟨?_, ?_, ?_⟩
  · intro fmtT s b d h
    unfold stepMessage
    rw [if_pos h]
  · intro decodes s p rest hp hm hd
    simp only [stepDecodeDone, hp]
    simp [hd, hm]
  · intro decodes s h
    unfold stepDecodeDone
    split
    · rfl
    · simp [h]

/-- Witness for C7 amended: a message arriving on a closed socket is a
no-op, and a pending decode in a Disconnected-but-mounted session still
paints. -/
theorem C7_witness :
    stepMessage (fun _ => "")
      { initSys with systemStatus := "Disconnected" } true msgPlain =
      { initSys with systemStatus := "Disconnected" } ∧
    (stepDecodeDone (fun _ => true)
      { initSys with
        systemStatus := "Disconnected"
        pendingDecodes := [[1, 2, 3]] }).painted = [[1, 2, 3]] := by
  constructor
  · exact C7_amended.1 (fun _ => "") _ true msgPlain rfl
  · have h := C7_amended.2.1 (fun _ => true)
      { initSys with
        systemStatus := "Disconnected"
        pendingDecodes := [[1, 2, 3]] }
      [1, 2, 3] [] rfl rfl rfl
    simpa [initSys] using h

end CCTV
